import Mathlib

/-!
Verification of the real-time audio streaming pipeline of the
mindful-social-storybook frontend (`useAudio.ts`, `useWebSocket.ts`, `App.tsx`).

The embedding models, directly from the TypeScript source:
* the gapless playback scheduler `AudioPlaybackQueue` (PCM version:
  `enqueue` schedules each chunk at `max(ctx.currentTime, nextStartTime)`
  on a single rendering clock, `clear` closes the context and resets
  `nextStartTime`),
* the earlier sorted-queue variant of `AudioPlaybackQueue`
  (`queue.push` + `queue.sort` + `playNext` with skip-on-decode-error),
* the capture pipeline (`startRecording` / `stopRecording`) with its
  float-to-PCM16 sample conversion,
* the orchestrator (`App.tsx`): `handleChunk` message dispatch and the
  press-to-talk / stop-story interrupt handlers.

Times, durations and audio samples are rationals; the rendering clock is
passed to each operation as the context's current reading.
-/

namespace Sprout

/-- One playback unit scheduled on the rendering clock by `enqueue`:
its sequence number, the `startAt` passed to `source.start`, and the
decoded buffer's duration. -/
structure ScheduledUnit where
  sequence : Nat
  startAt : ℚ
  duration : ℚ
  deriving Repr, DecidableEq

/-- State of the gapless `AudioPlaybackQueue`: whether the `AudioContext`
is held (`audioCtx !== null`), whether the analyser node is set up,
`nextStartTime`, `isActive`, the last volume reported through
`onPlaybackVolume`, and the history of units scheduled so far (in
scheduling order). -/
structure PlaybackQueueState where
  ctxOpen : Bool
  analyserOpen : Bool
  nextStartTime : ℚ
  isActive : Bool
  reportedVolume : ℚ
  scheduled : List ScheduledUnit
  deriving Repr, DecidableEq

/-- Field-initializer state of a fresh `AudioPlaybackQueue`. -/
def initialPlayback : PlaybackQueueState :=
  { ctxOpen := false
    analyserOpen := false
    nextStartTime := 0
    isActive := false
    reportedVolume := 0
    scheduled := [] }

/-- Duration of a decoded buffer holding `samples` Int16 samples at the
fixed 24 kHz playback rate (`buffer.duration = float32.length / 24000`). -/
def chunkDuration (samples : Nat) : ℚ := (samples : ℚ) / 24000

/-- `AudioPlaybackQueue.enqueue(base64, sequence)`, with the payload
abstracted to its decoded sample count and the context clock reading
`now` passed explicitly.  `getCtx()` recreates a closed context and
resets `nextStartTime` to `0`; the unit is scheduled at
`max(now, nextStartTime)` and `nextStartTime` advances by the buffer's
duration; `isActive` becomes true and the analyser is (re)installed. -/
def enqueue (st : PlaybackQueueState) (now : ℚ) (sequence samples : Nat) :
    PlaybackQueueState :=
  let next0 : ℚ := if st.ctxOpen then st.nextStartTime else 0
  let startAt : ℚ := max now next0
  { ctxOpen := true
    analyserOpen := true
    nextStartTime := startAt + chunkDuration samples
    isActive := true
    reportedVolume := st.reportedVolume
    scheduled := st.scheduled ++ [⟨sequence, startAt, chunkDuration samples⟩] }

/-- `AudioPlaybackQueue.clear()`: cancels the volume-polling frame,
forces `isActive := false`, reports volume `0`, closes and releases the
`AudioContext` (discarding every scheduled-but-not-started unit with it)
and resets `nextStartTime` to `0`.  The `scheduled` field is a pure
history of past scheduling calls and is not a resource. -/
def clear (st : PlaybackQueueState) : PlaybackQueueState :=
  { ctxOpen := false
    analyserOpen := false
    nextStartTime := 0
    isActive := false
    reportedVolume := 0
    scheduled := st.scheduled }

/-- The most recently scheduled unit. -/
def lastScheduled (st : PlaybackQueueState) : Option ScheduledUnit :=
  st.scheduled.getLast?

/-- Sequence numbers in the order their chunks were scheduled for playback. -/
def scheduledSeqs (st : PlaybackQueueState) : List Nat :=
  st.scheduled.map (fun u => u.sequence)

/-- Run a list of `enqueue` calls, each given as
`(clock reading, sequence, samples)`, in arrival order. -/
def runEnqueues (st : PlaybackQueueState) :
    List (ℚ × Nat × Nat) → PlaybackQueueState
  | [] => st
  | c :: rest => runEnqueues (enqueue st c.1 c.2.1 c.2.2) rest

/-! ### The earlier sorted-queue variant of `AudioPlaybackQueue`

`enqueue` pushes `{base64, sequence}` and re-sorts the pending queue by
`sequence`; `playNext` shifts the head, decodes and plays it, chaining
to the next item from `source.onended`, and on a decode error its
`catch` block calls `playNext()` again, skipping just that chunk. -/

/-- A queued item of the sorted-queue player. -/
structure AudioQueueItem where
  base64 : String
  sequence : Nat
  deriving Repr, DecidableEq

/-- Insert an item after all queued items of smaller-or-equal sequence:
the effect of `queue.push(item)` followed by the stable
`queue.sort((a, b) => a.sequence - b.sequence)` on an already sorted
queue. -/
def insertBySeq (item : AudioQueueItem) :
    List AudioQueueItem → List AudioQueueItem
  | [] => [item]
  | x :: xs =>
    if x.sequence ≤ item.sequence then x :: insertBySeq item xs
    else item :: x :: xs

/-- State of the sorted-queue player: the pending queue, the `isPlaying`
flag, the sequences played so far (in playback order) and the sequences
skipped by the decode-error `catch` block. -/
structure V1State where
  queue : List AudioQueueItem
  isPlaying : Bool
  played : List Nat
  skipped : List Nat
  deriving Repr, DecidableEq

/-- Field-initializer state of the sorted-queue player. -/
def v1Initial : V1State := ⟨[], false, [], []⟩

/-- The `playNext` loop over the pending queue: an empty queue goes
idle; a decodable head is shifted and played (the rest waits for
`onended`); an undecodable head is shifted, logged and skipped, and the
`catch` block immediately tries the next item. -/
def v1PlayNextGo (decode : AudioQueueItem → Bool) :
    List AudioQueueItem → List Nat → List Nat → V1State
  | [], played, skipped => ⟨[], false, played, skipped⟩
  | item :: rest, played, skipped =>
    if decode item then ⟨rest, true, played ++ [item.sequence], skipped⟩
    else v1PlayNextGo decode rest played (skipped ++ [item.sequence])

/-- `playNext()` on a player state. -/
def v1PlayNext (decode : AudioQueueItem → Bool) (st : V1State) : V1State :=
  v1PlayNextGo decode st.queue st.played st.skipped

/-- An external event of the sorted-queue player: an `enqueue` call, or
an `onended` completion of the currently playing source. -/
inductive V1Event where
  | enq (item : AudioQueueItem)
  | ended
  deriving Repr, DecidableEq

/-- One event step: `enqueue` pushes and re-sorts, and calls `playNext`
only when not already playing; `onended` calls `playNext`. -/
def v1Step (decode : AudioQueueItem → Bool) (st : V1State) :
    V1Event → V1State
  | .enq item =>
    let st' : V1State :=
      { st with queue := insertBySeq item st.queue }
    if st.isPlaying then st' else v1PlayNext decode st'
  | .ended => v1PlayNext decode st

/-- Run a list of events in order. -/
def v1Run (decode : AudioQueueItem → Bool) (st : V1State) :
    List V1Event → V1State
  | [] => st
  | e :: rest => v1Run decode (v1Step decode st e) rest

/-- Fire up to `n` `onended` completions, stopping once the player is
idle (an idle player has no started source left to complete). -/
def v1Endings (decode : AudioQueueItem → Bool) :
    Nat → V1State → V1State
  | 0, st => st
  | n + 1, st =>
    if st.isPlaying then v1Endings decode n (v1PlayNext decode st) else st

/-! ### Claims C1, C2, C3 -/

theorem enqueue_scheduledSeqs (st : PlaybackQueueState) (now : ℚ)
    (s m : Nat) :
    scheduledSeqs (enqueue st now s m) = scheduledSeqs st ++ [s] := by
  simp [scheduledSeqs, enqueue]

theorem runEnqueues_scheduledSeqs (calls : List (ℚ × Nat × Nat)) :
    ∀ st : PlaybackQueueState,
      scheduledSeqs (runEnqueues st calls) =
        scheduledSeqs st ++ calls.map (fun c => c.2.1) := by
  induction calls with
  | nil => intro st; simp [runEnqueues]
  | cons c rest ih =>
    intro st
    simp only [runEnqueues, ih, enqueue_scheduledSeqs, List.map_cons,
      List.append_assoc, List.singleton_append]

/-- Claim C1, as stated, is false at arrival order `[2,0,1]`: the
gapless scheduler schedules each chunk immediately on arrival (the
sequence number is only logged), so the scheduled order is `[2,0,1]`;
and the earlier sorted-queue player starts the first-arriving chunk
(sequence 2) before the others arrive, so its playback order is also
`[2,0,1]` — neither equals the ascending order `[0,1,2]`. -/
theorem c1_counterexample :
    scheduledSeqs (runEnqueues initialPlayback
        [(0, 2, 240), (0, 0, 240), (0, 1, 240)]) = [2, 0, 1] ∧
    (v1Run (fun _ => true) v1Initial
        [.enq ⟨"a", 2⟩, .enq ⟨"b", 0⟩, .enq ⟨"c", 1⟩,
         .ended, .ended, .ended]).played = [2, 0, 1] ∧
    ([2, 0, 1] : List Nat) ≠ [0, 1, 2] := by
  refine ⟨by decide, by decide, by decide⟩

/-- Claim C1 (amended): the gapless scheduler schedules chunks for
playback in arrival (enqueue) order, back-to-back; sequence numbers do
not affect the scheduled order, so chunks arriving as `[2,0,1]` are
scheduled as `[2,0,1]`. -/
theorem c1_arrival_order (calls : List (ℚ × Nat × Nat)) :
    scheduledSeqs (runEnqueues initialPlayback calls) =
      calls.map (fun c => c.2.1) := by
  simpa [initialPlayback, scheduledSeqs] using
    runEnqueues_scheduledSeqs calls initialPlayback

/-- Claim C2: each `enqueue` schedules its unit at
`max(currentClockTime, nextStartTime)` (with `nextStartTime` reset to 0
first when the context had to be recreated) and advances `nextStartTime`
by the unit's duration; consequently, for consecutive units A then B,
if B is enqueued at a clock reading no later than A's scheduled end
(`nextStartTime` after A), then B starts exactly at A's start plus A's
duration. -/
theorem c2_gapless :
    (∀ (st : PlaybackQueueState) (now : ℚ) (s m : Nat),
      lastScheduled (enqueue st now s m) =
        some ⟨s, max now (if st.ctxOpen then st.nextStartTime else 0),
          chunkDuration m⟩ ∧
      (enqueue st now s m).nextStartTime =
        max now (if st.ctxOpen then st.nextStartTime else 0) +
          chunkDuration m) ∧
    (∀ (st : PlaybackQueueState) (nowA nowB : ℚ) (sA mA sB mB : Nat)
      (uA uB : ScheduledUnit),
      nowB ≤ (enqueue st nowA sA mA).nextStartTime →
      lastScheduled (enqueue st nowA sA mA) = some uA →
      lastScheduled (enqueue (enqueue st nowA sA mA) nowB sB mB) = some uB →
      uB.startAt = uA.startAt + uA.duration) := by
  constructor
  · intro st now s m
    constructor
    · simp [lastScheduled, enqueue]
    · simp [enqueue]
  · intro st nowA nowB sA mA sB mB uA uB hle hA hB
    simp only [lastScheduled, enqueue, List.getLast?_append,
      List.getLast?_singleton, Option.or_some] at hA hB
    cases hA
    cases hB
    simpa using max_eq_right hle

/-- Concrete instance of the gapless property: A enqueued at clock 0
with 24000 samples (duration 1 s), B enqueued at clock 0 ≤ 1; B starts
at 1 = A's start plus A's duration. -/
theorem c2_gapless_witness :
    ((0 : ℚ) ≤ (enqueue initialPlayback 0 0 24000).nextStartTime) ∧
    (⟨1, 1, 1⟩ : ScheduledUnit).startAt =
      (⟨0, 0, 1⟩ : ScheduledUnit).startAt +
        (⟨0, 0, 1⟩ : ScheduledUnit).duration := by
  have h1 : (0 : ℚ) ≤ (enqueue initialPlayback 0 0 24000).nextStartTime := by
    norm_num [enqueue, initialPlayback, chunkDuration]
  have h2 : lastScheduled (enqueue initialPlayback 0 0 24000) =
      some ⟨0, 0, 1⟩ := by
    norm_num [lastScheduled, enqueue, initialPlayback, chunkDuration]
  have h3 : lastScheduled
      (enqueue (enqueue initialPlayback 0 0 24000) 0 1 24000) =
      some ⟨1, 1, 1⟩ := by
    norm_num [lastScheduled, enqueue, initialPlayback, chunkDuration,
      max_eq_right_iff]
  exact ⟨h1, c2_gapless.2 initialPlayback 0 0 0 24000 1 24000
    ⟨0, 0, 1⟩ ⟨1, 1, 1⟩ h1 h2 h3⟩

/-- Claim C3: `clear()` resets `nextStartTime` to 0 (not preserved from
the discarded timeline), forces the scheduler idle, zeroes the reported
volume and releases the audio context; an immediately following
`enqueue` (on the fresh context, whose clock reading `now` is
nonnegative) schedules the chunk to start exactly at `now` — at or
after the clock's current time, never before. -/
theorem c3_clear_fresh_timeline (st : PlaybackQueueState) (now : ℚ)
    (s m : Nat) (h : 0 ≤ now) :
    (clear st).nextStartTime = 0 ∧
    (clear st).isActive = false ∧
    (clear st).reportedVolume = 0 ∧
    (clear st).ctxOpen = false ∧
    lastScheduled (enqueue (clear st) now s m) =
      some ⟨s, now, chunkDuration m⟩ ∧
    (∀ u : ScheduledUnit,
      lastScheduled (enqueue (clear st) now s m) = some u →
      now ≤ u.startAt) := by
  refine ⟨rfl, rfl, rfl, rfl, ?_, ?_⟩
  · simp [lastScheduled, enqueue, clear, max_eq_left h]
  · intro u hu
    simp only [lastScheduled, enqueue, clear, List.getLast?_append,
      List.getLast?_singleton, Option.or_some] at hu
    cases hu
    exact le_max_left now 0

/-- Concrete instance of C3: after scheduling a chunk (so
`nextStartTime = 1/100 > 0`), `clear` resets everything and the next
`enqueue` at fresh clock reading 0 starts at 0. -/
theorem c3_clear_fresh_timeline_witness :
    ((0 : ℚ) ≤ 0) ∧
    (clear (enqueue initialPlayback 0 5 240)).nextStartTime = 0 ∧
    lastScheduled
        (enqueue (clear (enqueue initialPlayback 0 5 240)) 0 7 240) =
      some ⟨7, 0, chunkDuration 240⟩ := by
  refine ⟨le_refl 0, ?_, ?_⟩
  · exact (c3_clear_fresh_timeline (enqueue initialPlayback 0 5 240) 0 7 240
      (le_refl 0)).1
  · exact (c3_clear_fresh_timeline (enqueue initialPlayback 0 5 240) 0 7 240
      (le_refl 0)).2.2.2.2.1

/-! ### Capture pipeline (`startRecording` / `stopRecording`)

`processor.onaudioprocess` converts each float sample by
`s = Math.max(-1, Math.min(1, v)); pcm16[i] = s < 0 ? s * 0x8000 : s * 0x7fff`,
and the `Int16Array` store truncates toward zero and wraps modulo 2^16
into the signed 16-bit range. -/

/-- `Math.max(-1, Math.min(1, v))`. -/
def clampSample (x : ℚ) : ℚ := max (-1) (min 1 x)

/-- `s < 0 ? s * 0x8000 : s * 0x7fff`. -/
def scaleSample (s : ℚ) : ℚ := if s < 0 then s * 32768 else s * 32767

/-- Truncation toward zero, as JavaScript's number-to-integer step. -/
def truncQ (q : ℚ) : ℤ := if 0 ≤ q then ⌊q⌋ else ⌈q⌉

/-- The `Int16Array` element conversion: reduce modulo 2^16 and
reinterpret as a signed 16-bit value. -/
def toInt16 (n : ℤ) : ℤ :=
  if n % 65536 < 32768 then n % 65536 else n % 65536 - 65536

/-- One sample through the capture pipeline's float-to-PCM16 path. -/
def pcm16OfSample (x : ℚ) : ℤ :=
  toInt16 (truncQ (scaleSample (clampSample x)))

/-- Capture pipeline state: the media stream, audio context and script
processor handles, the `isRecording` flag and the last volume reported
through `onVolumeChange`. -/
structure CaptureState where
  streamOpen : Bool
  ctxOpen : Bool
  processorOpen : Bool
  isRecording : Bool
  reportedMicVolume : ℚ
  deriving Repr, DecidableEq

/-- Initial capture state: all refs `null`, not recording. -/
def initialCapture : CaptureState :=
  { streamOpen := false
    ctxOpen := false
    processorOpen := false
    isRecording := false
    reportedMicVolume := 0 }

/-- Externally visible capture events. -/
inductive CaptureEvent where
  | captureErrorLogged
  | micVolumeReport (v : ℚ)
  deriving Repr, DecidableEq

/-- `startRecording`: `getUserMedia` either succeeds (then the stream,
context, analyser and processor are installed and `isRecording` becomes
true) or throws before anything is assigned, in which case the `catch`
block logs the failure and every piece of state is left as it was. -/
def startRecording (st : CaptureState) (acquisitionOk : Bool) :
    CaptureState × List CaptureEvent :=
  if acquisitionOk then
    ({ streamOpen := true
       ctxOpen := true
       processorOpen := true
       isRecording := true
       reportedMicVolume := st.reportedMicVolume }, [])
  else
    (st, [CaptureEvent.captureErrorLogged])

/-- `stopRecording`: cancels the volume-polling frame, reports volume 0,
disconnects and drops the processor, closes and drops the context, stops
the stream tracks and clears `isRecording` — every access is through an
optional-chaining guard, so the call is total. -/
def stopRecording (_st : CaptureState) : CaptureState × List CaptureEvent :=
  ({ streamOpen := false
     ctxOpen := false
     processorOpen := false
     isRecording := false
     reportedMicVolume := 0 }, [CaptureEvent.micVolumeReport 0])

/-! ### Claims C5, C8, C9 -/

theorem toInt16_eq_self {n : ℤ} (h1 : -32768 ≤ n) (h2 : n ≤ 32767) :
    toInt16 n = n := by
  simp only [toInt16]
  split <;> omega

theorem pcm16_in_range (x : ℚ) :
    -32768 ≤ truncQ (scaleSample (clampSample x)) ∧
      truncQ (scaleSample (clampSample x)) ≤ 32767 := by
  have hlo : (-1 : ℚ) ≤ clampSample x := le_max_left _ _
  have hhi : clampSample x ≤ 1 := max_le (by norm_num) (min_le_left _ _)
  set s := clampSample x with hs
  by_cases hneg : s < 0
  · have hv : scaleSample s = s * 32768 := by simp [scaleSample, hneg]
    have hvneg : s * 32768 < 0 := mul_neg_of_neg_of_pos hneg (by norm_num)
    rw [hv]
    simp only [truncQ, if_neg (not_le.mpr hvneg)]
    constructor
    · have h1 : ((-32768 : ℤ) : ℚ) ≤ s * 32768 := by push_cast; nlinarith
      calc (-32768 : ℤ) = ⌈((-32768 : ℤ) : ℚ)⌉ := (Int.ceil_intCast _).symm
        _ ≤ ⌈s * 32768⌉ := Int.ceil_mono h1
    · have h2 : ⌈s * 32768⌉ ≤ 0 :=
        Int.ceil_le.mpr (by push_cast; exact le_of_lt hvneg)
      omega
  · have hnn : (0 : ℚ) ≤ s := not_lt.mp hneg
    have hv : scaleSample s = s * 32767 := by simp [scaleSample, hneg]
    have hv0 : (0 : ℚ) ≤ s * 32767 := mul_nonneg hnn (by norm_num)
    rw [hv]
    simp only [truncQ, if_pos hv0]
    constructor
    · have h0 : (0 : ℤ) ≤ ⌊s * 32767⌋ := Int.floor_nonneg.mpr hv0
      omega
    · have h1 : s * 32767 ≤ ((32767 : ℤ) : ℚ) := by push_cast; nlinarith
      calc ⌊s * 32767⌋ ≤ ⌊((32767 : ℤ) : ℚ)⌋ := Int.floor_mono h1
        _ = 32767 := Int.floor_intCast _

/-- Claim C5: the conversion clamps then scales (negative by 32768,
non-negative by 32767); the scaled-and-truncated value is always within
the signed 16-bit range, so the `Int16Array` store never wraps; and
0.0 encodes to 0, 1.0 to 32767, -1.0 to -32768. -/
theorem c5_pcm16_conversion :
    (∀ x : ℚ, pcm16OfSample x = truncQ (scaleSample (clampSample x)) ∧
      -32768 ≤ pcm16OfSample x ∧ pcm16OfSample x ≤ 32767) ∧
    pcm16OfSample 0 = 0 ∧
    pcm16OfSample 1 = 32767 ∧
    pcm16OfSample (-1) = -32768 := by
  have hmain : ∀ x : ℚ,
      pcm16OfSample x = truncQ (scaleSample (clampSample x)) := fun x =>
    toInt16_eq_self (pcm16_in_range x).1 (pcm16_in_range x).2
  refine ⟨fun x => ⟨hmain x, ?_, ?_⟩, ?_, ?_, ?_⟩
  · rw [hmain x]; exact (pcm16_in_range x).1
  · rw [hmain x]; exact (pcm16_in_range x).2
  · have hc : clampSample 0 = 0 := by
      rw [clampSample, min_eq_right (by norm_num : (0 : ℚ) ≤ 1)]
      exact max_eq_right (by norm_num)
    have hsc : scaleSample 0 = 0 := by simp [scaleSample]
    have ht : truncQ 0 = 0 := by simp [truncQ]
    rw [pcm16OfSample, hc, hsc, ht]
    exact toInt16_eq_self (by norm_num) (by norm_num)
  · have hc : clampSample 1 = 1 := by
      rw [clampSample, min_self]
      exact max_eq_right (by norm_num)
    have hsc : scaleSample 1 = 32767 := by
      rw [scaleSample, if_neg (by norm_num)]
      norm_num
    have ht : truncQ 32767 = 32767 := by
      rw [truncQ, if_pos (by norm_num),
        show (32767 : ℚ) = ((32767 : ℤ) : ℚ) by norm_num]
      exact Int.floor_intCast _
    rw [pcm16OfSample, hc, hsc, ht]
    exact toInt16_eq_self (by norm_num) (by norm_num)
  · have hc : clampSample (-1) = -1 := by
      rw [clampSample, min_eq_right (by norm_num : (-1 : ℚ) ≤ 1), max_self]
    have hsc : scaleSample (-1) = -32768 := by
      rw [scaleSample, if_pos (by norm_num)]
      norm_num
    have ht : truncQ (-32768) = -32768 := by
      rw [truncQ, if_neg (by norm_num),
        show (-32768 : ℚ) = ((-32768 : ℤ) : ℚ) by norm_num]
      exact Int.ceil_intCast _
    rw [pcm16OfSample, hc, hsc, ht]
    exact toInt16_eq_self (by norm_num) (by norm_num)

/-- Claim C8: when device acquisition fails, `startRecording` logs a
capture-unavailable error and leaves the state exactly as it was; from
the initial state, recording does not start and no stream, context or
processor is held. -/
theorem c8_capture_start_failure :
    (∀ st : CaptureState,
      startRecording st false = (st, [CaptureEvent.captureErrorLogged])) ∧
    (startRecording initialCapture false).1.isRecording = false ∧
    (startRecording initialCapture false).1.streamOpen = false ∧
    (startRecording initialCapture false).1.ctxOpen = false ∧
    (startRecording initialCapture false).1.processorOpen = false := by
  exact ⟨fun st => rfl, rfl, rfl, rfl, rfl⟩

/-- Claim C9: capture `stopRecording` twice produces the same end state
as once, and playback `clear` twice produces the same end state as once;
both are total functions (all resource accesses in the source are
null-guarded), so the second call throws nothing. -/
theorem c9_idempotent_cancellation :
    (∀ st : CaptureState,
      stopRecording (stopRecording st).1 = stopRecording st) ∧
    (∀ q : PlaybackQueueState, clear (clear q) = clear q) := by
  exact ⟨fun st => rfl, fun q => rfl⟩

/-! ### Session orchestrator (`App.tsx`)

`handleChunk` dispatches a decoded `StoryChunk` to the story-item
accumulator, the playback queue or the error log; `handlePressStart` and
`handleInterrupt` implement barge-in.  JavaScript truthiness matters:
`if (chunk.data)` rejects both a missing and an empty `data` string. -/

/-- The discriminated `type` field of a wire message. -/
inductive ChunkType where
  | text
  | image
  | audio
  | status
  | error
  deriving Repr, DecidableEq

/-- A decoded `StoryChunk`: `{type, data?, mime_type?, sequence?}`. -/
structure StoryChunk where
  type : ChunkType
  data : Option String
  mime_type : Option String
  sequence : Option Nat
  deriving Repr, DecidableEq

/-- The kind of a story item (`'text' | 'image'`). -/
inductive ItemKind where
  | text
  | image
  deriving Repr, DecidableEq

/-- A `StoryItem` `{id, type, content}`; `id` is the value of the `uid`
counter when the item was created. -/
structure StoryItem where
  id : Nat
  type : ItemKind
  content : String
  deriving Repr, DecidableEq

/-- Orchestrator state touched by `handleChunk`: the story items, the
module-level `itemCounter` behind `uid()`, the log of
`audioQueue.enqueue(data, sequence)` calls, and the log of server errors
passed to `console.error`. -/
structure AppState where
  storyItems : List StoryItem
  itemCounter : Nat
  audioEnqueued : List (String × Nat)
  errorsLogged : List (Option String)
  deriving Repr, DecidableEq

/-- State before any message arrives. -/
def initApp : AppState :=
  { storyItems := [], itemCounter := 0, audioEnqueued := [], errorsLogged := [] }

/-- `handleChunk`, translated case by case from the `switch`:
a truthy `text` payload extends the last story item when that item is a
text item and opens a new text item otherwise; a truthy `image` payload
opens a new image item; an `audio` payload is forwarded to
`enqueue(chunk.data, chunk.sequence)` only under
`chunk.data && chunk.sequence !== undefined`; `error` logs `chunk.data`;
`status` has no case and falls through. -/
def handleChunk (st : AppState) (c : StoryChunk) : AppState :=
  match c.type with
  | ChunkType.text =>
    match c.data with
    | some d =>
      if d = "" then st
      else
        match st.storyItems.getLast? with
        | some lastItem =>
          if lastItem.type = ItemKind.text then
            { st with storyItems := st.storyItems.dropLast ++
                [{ lastItem with content := lastItem.content ++ d }] }
          else
            { st with
              storyItems := st.storyItems ++
                [⟨st.itemCounter + 1, ItemKind.text, d⟩]
              itemCounter := st.itemCounter + 1 }
        | none =>
          { st with
            storyItems := st.storyItems ++
              [⟨st.itemCounter + 1, ItemKind.text, d⟩]
            itemCounter := st.itemCounter + 1 }
    | none => st
  | ChunkType.image =>
    match c.data with
    | some d =>
      if d = "" then st
      else
        { st with
          storyItems := st.storyItems ++
            [⟨st.itemCounter + 1, ItemKind.image, d⟩]
          itemCounter := st.itemCounter + 1 }
    | none => st
  | ChunkType.audio =>
    match c.data, c.sequence with
    | some d, some n =>
      if d = "" then st
      else { st with audioEnqueued := st.audioEnqueued ++ [(d, n)] }
    | _, _ => st
  | ChunkType.error => { st with errorsLogged := st.errorsLogged ++ [c.data] }
  | ChunkType.status => st

/-- Modelled from the spec's words for comparison in claim C7: a text
fragment `d` is appended to the in-progress text unit when the most
recent unit is also of kind text, and a new text unit is created
otherwise. -/
def specTextStep (st : AppState) (d : String) : AppState :=
  match st.storyItems.getLast? with
  | some u =>
    if u.type = ItemKind.text then
      { st with storyItems := st.storyItems.dropLast ++
          [{ u with content := u.content ++ d }] }
    else
      { st with
        storyItems := st.storyItems ++ [⟨st.itemCounter + 1, ItemKind.text, d⟩]
        itemCounter := st.itemCounter + 1 }
  | none =>
    { st with
      storyItems := st.storyItems ++ [⟨st.itemCounter + 1, ItemKind.text, d⟩]
      itemCounter := st.itemCounter + 1 }

/-- The orchestrator's externally visible actions, in program order. -/
inductive OrchAction where
  | unlock
  | clearPlayback
  | sendInterrupt
  | setWaiting (b : Bool)
  | startCapture
  | stopCapture
  deriving Repr, DecidableEq

/-- `handlePressStart`: `unlock(); clear(); sendInterrupt();
setIsWaitingForSprout(false); startRecording()`. -/
def handlePressStart : List OrchAction :=
  [OrchAction.unlock, OrchAction.clearPlayback, OrchAction.sendInterrupt,
   OrchAction.setWaiting false, OrchAction.startCapture]

/-- `handleInterrupt` (the stop-story action): `clear(); sendInterrupt();
setIsWaitingForSprout(false)`. -/
def handleInterrupt : List OrchAction :=
  [OrchAction.clearPlayback, OrchAction.sendInterrupt,
   OrchAction.setWaiting false]

/-- `handlePressEnd`: `stopRecording(); setIsWaitingForSprout(true)`. -/
def handlePressEnd : List OrchAction :=
  [OrchAction.stopCapture, OrchAction.setWaiting true]

/-! ### Claims C4, C7, C10 -/

/-- Claim C4: on both user-initiated interrupts the playback queue is
cleared strictly before the interrupt message is sent to the peer, and
on press-to-talk start both happen before the new capture session
starts. -/
theorem c4_interrupt_ordering :
    handlePressStart.indexOf OrchAction.clearPlayback <
      handlePressStart.indexOf OrchAction.sendInterrupt ∧
    handlePressStart.indexOf OrchAction.sendInterrupt <
      handlePressStart.indexOf OrchAction.startCapture ∧
    handlePressStart.indexOf OrchAction.clearPlayback <
      handlePressStart.indexOf OrchAction.startCapture ∧
    handleInterrupt.indexOf OrchAction.clearPlayback <
      handleInterrupt.indexOf OrchAction.sendInterrupt := by
  decide

/-- Claim C7, as stated, is false at a text message whose `data` is the
empty string: JavaScript truthiness makes `if (chunk.data)` reject `""`,
so no new text unit is created even though the most recent unit (there
is none) is not a text unit — the state is left unchanged. -/
theorem c7_counterexample :
    handleChunk initApp ⟨ChunkType.text, some "", none, none⟩ = initApp ∧
    (handleChunk initApp
        ⟨ChunkType.text, some "", none, none⟩).storyItems.length = 0 := by
  exact ⟨rfl, rfl⟩

/-- Claim C7 (amended): for every incoming text message carrying a
nonempty data fragment, the fragment is appended to the in-progress text
unit when the most recent unit is also a text unit, and a new text unit
is created otherwise (messages with missing or empty data leave the
story unchanged); `"Once"` then `" upon a time"` accumulate into one
unit `"Once upon a time"`, and an intervening image message forces the
next text arrival to open a new unit. -/
theorem c7_text_accumulation :
    (∀ (st : AppState) (d : String), d ≠ "" →
      handleChunk st ⟨ChunkType.text, some d, none, none⟩ =
        specTextStep st d) ∧
    (handleChunk
        (handleChunk initApp ⟨ChunkType.text, some "Once", none, none⟩)
        ⟨ChunkType.text, some " upon a time", none, none⟩).storyItems =
      [⟨1, ItemKind.text, "Once upon a time"⟩] ∧
    (handleChunk
        (handleChunk
          (handleChunk initApp ⟨ChunkType.text, some "Once", none, none⟩)
          ⟨ChunkType.image, some "img", none, none⟩)
        ⟨ChunkType.text, some " upon a time", none, none⟩).storyItems =
      [⟨1, ItemKind.text, "Once"⟩, ⟨2, ItemKind.image, "img"⟩,
       ⟨3, ItemKind.text, " upon a time"⟩] := by
  refine ⟨?_, by decide, by decide⟩
  intro st d hd
  simp [handleChunk, specTextStep, hd]

/-- Concrete instance of the amended C7 at the scenario's first message. -/
theorem c7_text_accumulation_witness :
    ("Once" ≠ "") ∧
    handleChunk initApp ⟨ChunkType.text, some "Once", none, none⟩ =
      specTextStep initApp "Once" := by
  exact ⟨by decide, c7_text_accumulation.1 initApp "Once" (by decide)⟩

/-- Claim C10: an audio message is forwarded to the playback queue's
`enqueue` only when its `data` is present (and nonempty, by JavaScript
truthiness) and its `sequence` is present; an audio message missing
either field is dropped silently — the orchestrator state, including
the error log, is exactly unchanged. -/
theorem c10_audio_field_guard :
    (∀ (st : AppState) (c : StoryChunk), c.type = ChunkType.audio →
      (handleChunk st c).audioEnqueued ≠ st.audioEnqueued →
      (∃ d, c.data = some d ∧ d ≠ "") ∧ c.sequence ≠ none) ∧
    (∀ (st : AppState) (c : StoryChunk), c.type = ChunkType.audio →
      (c.data = none ∨ c.sequence = none) →
      handleChunk st c = st) := by
  constructor
  · intro st c ht hne
    rcases c with ⟨ct, cd, cm, cs⟩
    simp only at ht
    subst ht
    cases cd with
    | none => simp [handleChunk] at hne
    | some d =>
      cases cs with
      | none => simp [handleChunk] at hne
      | some n =>
        by_cases hd : d = ""
        · subst hd; simp [handleChunk] at hne
        · exact ⟨⟨d, rfl, hd⟩, by simp⟩
  · intro st c ht hmiss
    rcases c with ⟨ct, cd, cm, cs⟩
    simp only at ht
    subst ht
    rcases hmiss with h | h
    · simp only at h
      subst h
      rfl
    · simp only at h
      subst h
      cases cd <;> rfl

/-- Concrete instance of C10: an audio message with data but no sequence
is dropped with no state change. -/
theorem c10_audio_field_guard_witness :
    (StoryChunk.mk ChunkType.audio (some "abc") none none).sequence = none ∧
    handleChunk initApp ⟨ChunkType.audio, some "abc", none, none⟩ =
      initApp := by
  exact ⟨rfl, c10_audio_field_guard.2 initApp
    ⟨ChunkType.audio, some "abc", none, none⟩ rfl (Or.inr rfl)⟩

/-! ### Claim C6 -/

theorem v1Endings_idle (decode : AudioQueueItem → Bool) (n : Nat)
    (st : V1State) (h : st.isPlaying = false) :
    v1Endings decode n st = st := by
  cases n <;> simp [v1Endings, h]

theorem v1Endings_playing (decode : AudioQueueItem → Bool) (n : Nat)
    (st : V1State) (h : st.isPlaying = true) :
    v1Endings decode (n + 1) st = v1Endings decode n (v1PlayNext decode st) := by
  simp [v1Endings, h]

theorem v1Endings_drain (decode : AudioQueueItem → Bool)
    (q : List AudioQueueItem) :
    ∀ (n : Nat) (p s : List Nat), q.length < n →
      v1Endings decode n ⟨q, true, p, s⟩ =
        ⟨[], false,
          p ++ (q.filter (fun i => decode i)).map (fun i => i.sequence),
          s ++ (q.filter (fun i => !decode i)).map (fun i => i.sequence)⟩ := by
  induction q with
  | nil =>
    intro n p s h
    match n, h with
    | n + 1, _ =>
      rw [v1Endings_playing decode n _ rfl]
      rw [v1Endings_idle decode n _ rfl]
      simp [v1PlayNext, v1PlayNextGo]
  | cons item rest ih =>
    intro n p s h
    match n, h with
    | n + 1, h =>
      have h' : rest.length < n := by
        simp only [List.length_cons] at h
        omega
      rw [v1Endings_playing decode n _ rfl]
      by_cases hd : decode item
      · have hgo : v1PlayNext decode ⟨item :: rest, true, p, s⟩ =
            ⟨rest, true, p ++ [item.sequence], s⟩ := by
          simp [v1PlayNext, v1PlayNextGo, hd]
        rw [hgo, ih n (p ++ [item.sequence]) s h']
        simp [hd, List.filter_cons]
      · have hgo : v1PlayNext decode ⟨item :: rest, true, p, s⟩ =
            v1PlayNext decode ⟨rest, true, p, s ++ [item.sequence]⟩ := by
          simp [v1PlayNext, v1PlayNextGo, hd]
        rw [hgo, ← v1Endings_playing decode n _ rfl,
          ih (n + 1) p (s ++ [item.sequence]) (Nat.lt_succ_of_lt h')]
        simp [hd, List.filter_cons]

/-- Claim C6: when the sorted-queue player drains a pending queue
through `playNext` and `onended` completions, every chunk whose payload
decodes is played, in queue order, and every chunk whose payload fails
to decode is skipped by the `catch` block — the player advances past it
to the next queued chunk, and always reaches the idle state with an
empty queue instead of stalling or aborting. -/
theorem c6_decode_error_skips (decode : AudioQueueItem → Bool)
    (q : List AudioQueueItem) (n : Nat) (h : q.length < n) :
    v1Endings decode n ⟨q, true, [], []⟩ =
      ⟨[], false,
        (q.filter (fun i => decode i)).map (fun i => i.sequence),
        (q.filter (fun i => !decode i)).map (fun i => i.sequence)⟩ := by
  have := v1Endings_drain decode q n [] [] h
  simpa using this

/-- Concrete instance of C6: a corrupt chunk (sequence 1) between two
good chunks is skipped; sequences 0 and 2 play, the player ends idle. -/
theorem c6_decode_error_skips_witness :
    (([⟨"good1", 0⟩, ⟨"corrupt", 1⟩, ⟨"good2", 2⟩] :
        List AudioQueueItem).length < 4) ∧
    v1Endings (fun i => i.sequence != 1) 4
        ⟨[⟨"good1", 0⟩, ⟨"corrupt", 1⟩, ⟨"good2", 2⟩], true, [], []⟩ =
      ⟨[], false, [0, 2], [1]⟩ := by
  refine ⟨by decide, ?_⟩
  rw [c6_decode_error_skips (fun i => i.sequence != 1)
    [⟨"good1", 0⟩, ⟨"corrupt", 1⟩, ⟨"good2", 2⟩] 4 (by decide)]
  decide

end Sprout
